import Mathlib

/-!
Verification of the sensor value model and register-range consolidation of
deye_sensor.py: a shallow embedding of the classes Sensor, DailyResetSensor,
NamedSensor, SingleRegisterSensor, DoubleRegisterSensor,
SignedMagnitudeSingleRegisterSensor, ComputedSumSensor, SensorRegisterRange
and SensorRegisterRanges, together with theorems about their read/write,
state-update and consolidation behaviour.

Modelling conventions: Python floats are embedded as exact rationals; a
register snapshot (Python dict) is a function from address to optional byte
list; Python None is Option.none; a raised exception is Except.error or
Option.none as noted at each definition.
-/

/-- Register snapshot: maps a register address to the raw bytes fetched for
it, none when the address is absent from the snapshot. -/
abbrev RegisterSnapshot := Nat → Option (List Nat)

/-- Timestamp as consulted by the code: DailyResetSensor only ever reads the
day field of a datetime (now.day, last_value_ts.day). -/
structure PyDate where
  day : Nat
  deriving DecidableEq

/-- Mutable state of a DailyResetSensor: last_value (a number, or None after
an absent reading was stored) and last_value_ts. -/
structure DailyResetState where
  last_value : Option Rat
  last_value_ts : PyDate
  deriving DecidableEq

/-- Embeds DailyResetSensor.read_value (deye_sensor.py lines 82-89). The
delegate's reading for the snapshot is passed as value, the current timestamp
as now; the result pairs the returned value with the state after the call.
Python evaluates the guard left to right: value is not None, then
now.day != last_value_ts.day, then value >= last_value; that last comparison
raises TypeError when the stored last_value is None, modelled as
Except.error. The reset branch returns 0 before the state assignments, so it
leaves the state untouched; every other path assigns
last_value = value, last_value_ts = now (also when value is None). -/
def dailyResetRead (st : DailyResetState) (now : PyDate) (value : Option Rat) :
    Except Unit (Option Rat × DailyResetState) :=
  match value with
  | some v =>
    if now.day ≠ st.last_value_ts.day then
      match st.last_value with
      | none => Except.error ()
      | some lv =>
        if lv ≤ v then Except.ok (some 0, st)
        else Except.ok (some v, ⟨some v, now⟩)
    else Except.ok (some v, ⟨some v, now⟩)
  | none => Except.ok (none, ⟨none, now⟩)

/-- Decidable equality for Except, so that concrete daily-reset results can
be checked by decide. -/
instance {e a : Type} [DecidableEq e] [DecidableEq a] : DecidableEq (Except e a) := fun x y =>
  match x, y with
  | Except.error u, Except.error v =>
    if h : u = v then Decidable.isTrue (by rw [h]) else Decidable.isFalse (by simp [h])
  | Except.ok u, Except.ok v =>
    if h : u = v then Decidable.isTrue (by rw [h]) else Decidable.isFalse (by simp [h])
  | Except.error _, Except.ok _ => Decidable.isFalse (by simp)
  | Except.ok _, Except.error _ => Decidable.isFalse (by simp)

/-- Big-endian unsigned interpretation of a byte list, as in Python
int.from_bytes(bs, "big", signed=False). -/
def int_from_bytes_unsigned (bs : List Nat) : Nat :=
  bs.foldl (fun acc b => acc * 256 + b) 0

/-- Big-endian interpretation of a byte list with optional two's-complement
sign, as in Python int.from_bytes(bs, "big", signed=s). -/
def int_from_bytes (bs : List Nat) (signed : Bool) : Int :=
  let u := int_from_bytes_unsigned bs
  if signed = true ∧ 2 ^ (8 * bs.length - 1) ≤ u then (u : Int) - 2 ^ (8 * bs.length)
  else (u : Int)

/-- Embeds Python v.to_bytes(2, "big", signed=s); none models the
OverflowError raised when v does not fit in two bytes. -/
def int_to_bytes2 (v : Int) (signed : Bool) : Option (List Nat) :=
  if signed = true then
    if -32768 ≤ v ∧ v < 32768 then
      some [(v % 65536).toNat / 256, (v % 65536).toNat % 256]
    else none
  else
    if 0 ≤ v ∧ v < 65536 then some [v.toNat / 256, v.toNat % 256] else none

/-- Embeds Python int(x) on a rational: truncation toward zero. -/
def py_int_of_rat (q : Rat) : Int := q.num.tdiv (q.den : Int)

/-- Modelled from the spec: Python round(x) as the spec invokes it for
write_value — round half to even. Used only to compare the spec's claimed
encoder against the implemented one. -/
def py_round (q : Rat) : Int :=
  let f := q.floor
  let r := q - (f : Rat)
  if r < 1 / 2 then f
  else if 1 / 2 < r then f + 1
  else if f % 2 = 0 then f else f + 1

/-- Fields of SingleRegisterSensor (lines 118-139); the descriptive fields
name, topic, unit and format play no role in the verified operations and are
omitted. -/
structure SingleRegisterSensor where
  reg_address : Nat
  factor : Rat
  offset : Rat
  signed : Bool
  deriving DecidableEq

/-- Embeds SingleRegisterSensor.read_value (lines 141-146). -/
def SingleRegisterSensor.read_value (s : SingleRegisterSensor)
    (registers : RegisterSnapshot) : Option Rat :=
  match registers s.reg_address with
  | some reg_value => some ((int_from_bytes reg_value s.signed : Rat) * s.factor + s.offset)
  | none => none

/-- Embeds SingleRegisterSensor.write_value (lines 148-150):
v = int((value - offset) / factor), encoded as two big-endian bytes with the
configured signedness, returned as a one-entry address-to-bytes mapping.
none models the Python exceptions (ZeroDivisionError when factor is 0,
OverflowError from to_bytes). -/
def SingleRegisterSensor.write_value (s : SingleRegisterSensor) (value : Rat) :
    Option (List (Nat × List Nat)) :=
  if s.factor = 0 then none
  else
    match int_to_bytes2 (py_int_of_rat ((value - s.offset) / s.factor)) s.signed with
    | some bs => some [(s.reg_address, bs)]
    | none => none

/-- Modelled from the spec: the claimed write_value that computes
round((v - offset) / factor) rather than the implemented truncation. -/
def write_value_round_spec (s : SingleRegisterSensor) (value : Rat) :
    Option (List (Nat × List Nat)) :=
  if s.factor = 0 then none
  else
    match int_to_bytes2 (py_round ((value - s.offset) / s.factor)) s.signed with
    | some bs => some [(s.reg_address, bs)]
    | none => none

/-- A signed-magnitude single-register sensor carries exactly the fields of
its base class. -/
abbrev SignedMagnitudeSingleRegisterSensor := SingleRegisterSensor

/-- Embeds SignedMagnitudeSingleRegisterSensor.read_value (lines 209-218).
bytes.headD 0 stands for registers[self.reg_address][0]; snapshot values are
two bytes each (spec section 3), so the empty-bytearray IndexError case is
outside the modelled domain. -/
def SignedMagnitudeSingleRegisterSensor.read_value
    (s : SignedMagnitudeSingleRegisterSensor) (registers : RegisterSnapshot) :
    Option Rat :=
  match registers s.reg_address with
  | some bytes =>
    let reg_value := int_from_bytes_unsigned bytes &&& 0x7FFF
    if bytes.headD 0 &&& 0x80 ≠ 0 then
      some ((-1 : Rat) * (reg_value : Rat) * s.factor + s.offset)
    else
      some ((reg_value : Rat) * s.factor + s.offset)
  | none => none

/-- Fields of DoubleRegisterSensor (lines 160-183); descriptive fields
omitted as for SingleRegisterSensor. -/
structure DoubleRegisterSensor where
  reg_address : Nat
  factor : Rat
  offset : Rat
  signed : Bool
  low_word_first : Bool
  deriving DecidableEq

/-- Embeds DoubleRegisterSensor.read_value (lines 185-193). -/
def DoubleRegisterSensor.read_value (s : DoubleRegisterSensor)
    (registers : RegisterSnapshot) : Option Rat :=
  let low_word_reg_address := s.reg_address + (if s.low_word_first then 0 else 1)
  let high_word_reg_address := s.reg_address + (if s.low_word_first then 1 else 0)
  match registers low_word_reg_address, registers high_word_reg_address with
  | some low_word, some high_word =>
    some ((int_from_bytes (high_word ++ low_word) s.signed : Rat) * s.factor + s.offset)
  | _, _ => none

/-- Embeds the loop of ComputedSumSensor.read_value (lines 285-292) over the
list sensor_values: accumulate, returning None at the first absent value. -/
def sum_loop : Rat → List (Option Rat) → Option Rat
  | result, [] => some result
  | _, none :: _ => none
  | result, some value :: rest => sum_loop (result + value) rest

/-- Embeds ComputedSumSensor.read_value (lines 285-292); the operand sensors
are abstracted to their read_value functions, and sensor_values is their
image on the snapshot, exactly as the list comprehension builds it. -/
def ComputedSumSensor.read_value (sensors : List (RegisterSnapshot → Option Rat))
    (registers : RegisterSnapshot) : Option Rat :=
  sum_loop 0 (sensors.map (fun s => s registers))

/-- Embeds Sensor.in_any_group (lines 54-59): groups is the sensor's own
group set; Python falsiness of an empty set is isEmpty, and a nonempty
intersection with active_groups is an any/contains test. -/
def Sensor.in_any_group (groups : List String) (active_groups : List String) : Bool :=
  groups.isEmpty || groups.any (fun g => active_groups.contains g)

/-- Fields of NamedSensor (lines 104-111). -/
structure NamedSensor where
  name : String
  mqtt_topic_suffix : String
  unit : String
  print_format : String
  groups : List String
  deriving DecidableEq

/-- Embeds NamedSensor.__init__ (lines 105-111): the assert that groups is
nonempty is modelled by returning none (AssertionError) when it fails. -/
def NamedSensor.mk_checked (name mqtt_topic_suffix unit print_format : String)
    (groups : List String) : Option NamedSensor :=
  if groups.length > 0 then some ⟨name, mqtt_topic_suffix, unit, print_format, groups⟩
  else none

/-- Fields of SensorRegisterRange (lines 316-324); the group set is modelled
as a list. -/
structure SensorRegisterRange where
  group : List String
  first_reg_address : Nat
  last_reg_address : Nat
  deriving DecidableEq

/-- Embeds SensorRegisterRange.in_any_group (lines 326-330): nonempty
intersection of the range's own group set with active_groups — note there is
no empty-set shortcut here, unlike Sensor.in_any_group. -/
def SensorRegisterRange.in_any_group (r : SensorRegisterRange)
    (active_groups : List String) : Bool :=
  r.group.any (fun g => active_groups.contains g)

/-- Embeds SensorRegisterRange.is_same_range (lines 332-341). -/
def SensorRegisterRange.is_same_range (r other : SensorRegisterRange) : Bool :=
  r.first_reg_address == other.first_reg_address &&
    r.last_reg_address == other.last_reg_address

/-- Embeds SensorRegisterRange.length (lines 343-345). -/
def SensorRegisterRange.length (r : SensorRegisterRange) : Nat :=
  r.last_reg_address - r.first_reg_address + 1

/-- Nat ceiling division, embedding math.ceil(a / b) for positive b. -/
def ceil_div (a b : Nat) : Nat := (a + b - 1) / b

/-- Embeds SensorRegisterRange.split (lines 347-362). -/
def SensorRegisterRange.split (r : SensorRegisterRange) (sub_range_len : Nat) :
    List SensorRegisterRange :=
  (List.range (ceil_div r.length sub_range_len)).map (fun i =>
    let sub_range_first_reg := r.first_reg_address + i * sub_range_len
    let sub_range_last_reg := min (sub_range_first_reg + sub_range_len - 1) r.last_reg_address
    ⟨r.group, sub_range_first_reg, sub_range_last_reg⟩)

/-- Embeds SensorRegisterRanges.__filter_reg_ranges (lines 376-380). -/
def filter_reg_ranges (reg_ranges_to_filter : List SensorRegisterRange)
    (metric_groups : List String) : List SensorRegisterRange :=
  reg_ranges_to_filter.filter (fun r => r.in_any_group metric_groups)

/-- Embeds SensorRegisterRanges.__remove_duplicated_reg_ranges
(lines 394-400): scanning in order, append a range only when no already-kept
range has the same first and last address. -/
def remove_duplicated_reg_ranges (reg_ranges : List SensorRegisterRange) :
    List SensorRegisterRange :=
  reg_ranges.foldl (fun result reg_range =>
    if (result.filter (fun r => r.is_same_range reg_range)).isEmpty then
      result ++ [reg_range]
    else result) []

/-- Embeds SensorRegisterRanges.__split_long_reg_ranges (lines 382-392). -/
def split_long_reg_ranges (reg_ranges : List SensorRegisterRange)
    (max_range_length : Nat) : List SensorRegisterRange :=
  reg_ranges.foldl (fun result reg_range =>
    if reg_range.length ≤ max_range_length then result ++ [reg_range]
    else result ++ reg_range.split max_range_length) []

/-- Embeds SensorRegisterRanges.__init__ (lines 370-374): filter, then
dedupe, then split. -/
def SensorRegisterRanges.ranges (ranges : List SensorRegisterRange)
    (metric_groups : List String) (max_range_length : Nat) :
    List SensorRegisterRange :=
  split_long_reg_ranges
    (remove_duplicated_reg_ranges (filter_reg_ranges ranges metric_groups))
    max_range_length

/-- Checks that subs, in order, tile the address span from first to last
exactly: the first sub-range starts at first, each sub-range is well formed
and is followed immediately by the next, and the final one ends at last —
hence the span is covered with no gaps and no overlaps. -/
def contiguous_cover : List SensorRegisterRange → Nat → Nat → Bool
  | [], _, _ => false
  | [r], first, last =>
    r.first_reg_address == first && r.last_reg_address == last && decide (first ≤ last)
  | r :: r2 :: rest, first, last =>
    r.first_reg_address == first && decide (r.first_reg_address ≤ r.last_reg_address) &&
      contiguous_cover (r2 :: rest) (r.last_reg_address + 1) last

/-- C1: for a DailyResetSensor read whose stored last_value is a number, the
returned value is 0 exactly when the delegate's value is present, the day of
now differs from the day of last_value_ts, and value >= last_value; in every
other case (same day, value < last_value, or absent delegate value) the
delegate's value is returned unchanged. -/
theorem dailyReset_read_result (st : DailyResetState) (now : PyDate) (value : Option Rat)
    (lv : Rat) (h : st.last_value = some lv) :
    (dailyResetRead st now value).map Prod.fst =
      Except.ok (match value with
        | some v => if now.day ≠ st.last_value_ts.day ∧ lv ≤ v then some 0 else some v
        | none => none) := by
  cases value with
  | none => rfl
  | some v =>
    simp only [dailyResetRead, h]
    by_cases hd : now.day ≠ st.last_value_ts.day
    · by_cases hv : lv ≤ v
      · simp [hd, hv, Except.map]
      · simp [hd, hv, Except.map]
    · simp [hd, Except.map]

/-- C1 witness: last_value 3 from day 1, delegate value 5 on day 2 triggers
the synthetic reset and the read returns 0. -/
theorem dailyReset_read_result_witness :
    (dailyResetRead ⟨some 3, ⟨1⟩⟩ ⟨2⟩ (some 5)).map Prod.fst = Except.ok (some 0) := by
  have h := dailyReset_read_result ⟨some 3, ⟨1⟩⟩ ⟨2⟩ (some 5) 3 rfl
  rw [h]
  norm_num

/-- C2 counterexample: in the reset branch (last_value 100 from day 1,
delegate value 200 on day 2) the read returns 0 but leaves the state at
(100, day 1); the claimed state (200, day 2) is not stored. -/
theorem dailyReset_state_claim_false :
    (dailyResetRead ⟨some 100, ⟨1⟩⟩ ⟨2⟩ (some 200)).map Prod.snd ≠
      Except.ok (⟨some 200, ⟨2⟩⟩ : DailyResetState) := by decide

/-- C2 amended: when the reset branch fires (value present, day changed,
value >= last_value) the read returns 0 and leaves the state untouched; when
the delegate value is absent the state becomes (none, now) — last_value is
overwritten with the absent marker, not left unchanged; in the remaining
pass-through case the state becomes (value, now). -/
theorem dailyReset_state_update (st : DailyResetState) (now : PyDate) (value : Option Rat) :
    (∀ v lv, value = some v → st.last_value = some lv →
      now.day ≠ st.last_value_ts.day → lv ≤ v →
      dailyResetRead st now value = Except.ok (some 0, st)) ∧
    (value = none → dailyResetRead st now value = Except.ok (none, ⟨none, now⟩)) ∧
    (∀ v lv, value = some v → st.last_value = some lv →
      ¬(now.day ≠ st.last_value_ts.day ∧ lv ≤ v) →
      dailyResetRead st now value = Except.ok (some v, ⟨some v, now⟩)) := by
  refine ⟨?_, ?_, ?_⟩
  · rintro v lv rfl hlv hd hle
    simp [dailyResetRead, hlv, hd, hle]
  · rintro rfl
    rfl
  · rintro v lv rfl hlv hn
    simp only [dailyResetRead, hlv]
    by_cases hd : now.day ≠ st.last_value_ts.day
    · have hv : ¬ lv ≤ v := fun hle => hn ⟨hd, hle⟩
      simp [hd, hv]
    · simp [hd]

/-- C2 amended witness: the three branches at concrete inputs — reset with
state kept, absent reading clobbering last_value with none, and plain
pass-through updating the state. -/
theorem dailyReset_state_update_witness :
    dailyResetRead ⟨some 100, ⟨1⟩⟩ ⟨2⟩ (some 200) = Except.ok (some 0, ⟨some 100, ⟨1⟩⟩) ∧
    dailyResetRead ⟨some 100, ⟨1⟩⟩ ⟨2⟩ none = Except.ok (none, ⟨none, ⟨2⟩⟩) ∧
    dailyResetRead ⟨some 100, ⟨1⟩⟩ ⟨2⟩ (some 7) = Except.ok (some 7, ⟨some 7, ⟨2⟩⟩) :=
  ⟨(dailyReset_state_update ⟨some 100, ⟨1⟩⟩ ⟨2⟩ (some 200)).1 200 100 rfl rfl
      (by decide) (by norm_num),
   (dailyReset_state_update ⟨some 100, ⟨1⟩⟩ ⟨2⟩ none).2.1 rfl,
   (dailyReset_state_update ⟨some 100, ⟨1⟩⟩ ⟨2⟩ (some 7)).2.2 7 100 rfl rfl
      (by norm_num)⟩

/-- C8 counterexample: with last_value 100 from day 1 and delegate value 5 on
day 2 the read returns 5 (5 >= 100 fails, pass-through), not the claimed 0. -/
theorem dailyReset_example_claim_false :
    (dailyResetRead ⟨some 100, ⟨1⟩⟩ ⟨2⟩ (some 5)).map Prod.fst ≠ Except.ok (some 0) := by
  decide

/-- C8 amended: with last_value 100 from day 1 and delegate value 5 on day 2
the read returns 5 and the state becomes (5, day 2) — no synthetic reset,
since 5 < 100 means the device already reset; with last_value 3 and delegate
value 5 on day 2 (5 >= 3) the read returns the synthetic 0 and the state is
left at (3, day 1). -/
theorem dailyReset_examples :
    dailyResetRead ⟨some 100, ⟨1⟩⟩ ⟨2⟩ (some 5) = Except.ok (some 5, ⟨some 5, ⟨2⟩⟩) ∧
    dailyResetRead ⟨some 3, ⟨1⟩⟩ ⟨2⟩ (some 5) = Except.ok (some 0, ⟨some 3, ⟨1⟩⟩) := by
  decide

/-- C10: an absent delegate reading stores none as last_value; a later
present reading on a different day then raises TypeError when evaluating
value >= last_value (modelled as Except.error); whenever the stored
last_value is a number the read never raises, so read_value is total exactly
under the stated precondition. -/
theorem dailyReset_none_poisoning (st : DailyResetState) (now now2 : PyDate) (v : Rat) :
    (dailyResetRead st now none = Except.ok (none, ⟨none, now⟩)) ∧
    (now2.day ≠ now.day → dailyResetRead ⟨none, now⟩ now2 (some v) = Except.error ()) ∧
    (∀ lv value, st.last_value = some lv →
      ∃ r st2, dailyResetRead st now value = Except.ok (r, st2)) := by
  refine ⟨rfl, ?_, ?_⟩
  · intro hd
    simp [dailyResetRead, hd]
  · intro lv value hlv
    cases value with
    | none => exact ⟨none, ⟨none, now⟩, rfl⟩
    | some w =>
      simp only [dailyResetRead, hlv]
      by_cases hd : now.day ≠ st.last_value_ts.day
      · by_cases hw : lv ≤ w
        · exact ⟨some 0, st, by simp [hd, hw]⟩
        · exact ⟨some w, ⟨some w, now⟩, by simp [hd, hw]⟩
      · exact ⟨some w, ⟨some w, now⟩, by simp [hd]⟩

/-- C10 witness: after an absent reading on day 1 stored none, a present
reading on day 2 raises. -/
theorem dailyReset_none_poisoning_witness :
    dailyResetRead ⟨none, ⟨1⟩⟩ ⟨2⟩ (some 5) = Except.error () :=
  (dailyReset_none_poisoning ⟨some 0, ⟨1⟩⟩ ⟨1⟩ ⟨2⟩ 5).2.1 (by decide)

/-- C3: the consolidation pipeline on the catalog
[(g1,10,20),(g1,10,20),(g2,30,45)] with active groups {g1,g2} and
max_range_length 10 first dedupes to [(g1,10,20),(g2,30,45)] and then splits
to exactly [(g1,10,19),(g1,20,20),(g2,30,39),(g2,40,45)] in that order; the
sub-ranges tile the parent spans 10-20 and 30-45 with no gaps and no
overlaps. -/
theorem registerRanges_pipeline_example :
    SensorRegisterRanges.ranges
        [⟨["g1"], 10, 20⟩, ⟨["g1"], 10, 20⟩, ⟨["g2"], 30, 45⟩] ["g1", "g2"] 10 =
      [⟨["g1"], 10, 19⟩, ⟨["g1"], 20, 20⟩, ⟨["g2"], 30, 39⟩, ⟨["g2"], 40, 45⟩] ∧
    remove_duplicated_reg_ranges (filter_reg_ranges
        [⟨["g1"], 10, 20⟩, ⟨["g1"], 10, 20⟩, ⟨["g2"], 30, 45⟩] ["g1", "g2"]) =
      [⟨["g1"], 10, 20⟩, ⟨["g2"], 30, 45⟩] ∧
    contiguous_cover [⟨["g1"], 10, 19⟩, ⟨["g1"], 20, 20⟩] 10 20 = true ∧
    contiguous_cover [⟨["g2"], 30, 39⟩, ⟨["g2"], 40, 45⟩] 30 45 = true := by
  refine ⟨?_, ?_, ?_, ?_⟩ <;> decide

/-- C9 counterexample: a register range whose own group set is empty matches
no set of active groups — its in_any_group returns false, not true as the
claim states for any sensor or range with an empty group set. -/
theorem range_empty_group_claim_false :
    SensorRegisterRange.in_any_group ⟨[], 0, 0⟩ ["g1"] ≠ true := by decide

/-- C9 amended: Sensor.in_any_group returns true for every active set when
the sensor's own group set is empty; a SensorRegisterRange with an empty
group set matches no active set; and NamedSensor construction rejects an
empty groups collection, so the empty-group branch is unreachable for leaf
sensors. -/
theorem in_any_group_empty_and_ctor (active_groups : List String)
    (name mqtt_topic_suffix unit print_format : String) (f l : Nat) :
    Sensor.in_any_group [] active_groups = true ∧
    SensorRegisterRange.in_any_group ⟨[], f, l⟩ active_groups = false ∧
    NamedSensor.mk_checked name mqtt_topic_suffix unit print_format [] = none := by
  exact ⟨rfl, rfl, rfl⟩

/-- Big-endian value of a two-byte list. -/
theorem int_from_bytes_unsigned_pair (b1 b2 : Nat) :
    int_from_bytes_unsigned [b1, b2] = b1 * 256 + b2 := by
  simp [int_from_bytes_unsigned, List.foldl]

/-- Big-endian value of a four-byte list, grouped into two 16-bit words. -/
theorem int_from_bytes_unsigned_quad (h1 h2 l1 l2 : Nat) :
    int_from_bytes_unsigned [h1, h2, l1, l2] =
      (h1 * 256 + h2) * 65536 + (l1 * 256 + l2) := by
  simp [int_from_bytes_unsigned, List.foldl]
  ring

/-- Two-byte big-endian decode, unsigned flag. -/
theorem int_from_bytes_pair_false (b1 b2 : Nat) :
    int_from_bytes [b1, b2] false = ((b1 * 256 + b2 : Nat) : Int) := by
  unfold int_from_bytes
  rw [if_neg, int_from_bytes_unsigned_pair]
  rintro ⟨h, _⟩
  exact Bool.false_ne_true h

/-- Two-byte big-endian decode, signed flag, value below the sign bit. -/
theorem int_from_bytes_pair_true_low (b1 b2 : Nat) (h : b1 * 256 + b2 < 32768) :
    int_from_bytes [b1, b2] true = ((b1 * 256 + b2 : Nat) : Int) := by
  unfold int_from_bytes
  rw [if_neg, int_from_bytes_unsigned_pair]
  rintro ⟨_, hge⟩
  rw [int_from_bytes_unsigned_pair] at hge
  norm_num at hge
  omega

/-- Two-byte big-endian decode, signed flag, sign bit set. -/
theorem int_from_bytes_pair_true_high (b1 b2 : Nat) (h : 32768 ≤ b1 * 256 + b2) :
    int_from_bytes [b1, b2] true = ((b1 * 256 + b2 : Nat) : Int) - 65536 := by
  unfold int_from_bytes
  have hc : true = true ∧
      2 ^ (8 * List.length [b1, b2] - 1) ≤ int_from_bytes_unsigned [b1, b2] := by
    refine ⟨rfl, ?_⟩
    rw [int_from_bytes_unsigned_pair]
    norm_num
    omega
  rw [if_pos hc, int_from_bytes_unsigned_pair]
  norm_num

/-- Two-byte encode after two-byte decode is the identity, for either
signedness. -/
theorem int_to_bytes2_int_from_bytes (signed : Bool) (b1 b2 : Nat)
    (h1 : b1 < 256) (h2 : b2 < 256) :
    int_to_bytes2 (int_from_bytes [b1, b2] signed) signed = some [b1, b2] := by
  cases signed with
  | false =>
    rw [int_from_bytes_pair_false, int_to_bytes2]
    have hc : (0 : Int) ≤ ((b1 * 256 + b2 : Nat) : Int) ∧
        ((b1 * 256 + b2 : Nat) : Int) < 65536 := by omega
    have e1 : ((b1 * 256 + b2 : Nat) : Int).toNat / 256 = b1 := by omega
    have e2 : ((b1 * 256 + b2 : Nat) : Int).toNat % 256 = b2 := by omega
    rw [if_neg, if_pos hc, e1, e2]
    exact Bool.false_ne_true
  | true =>
    by_cases hge : 32768 ≤ b1 * 256 + b2
    · rw [int_from_bytes_pair_true_high b1 b2 hge, int_to_bytes2, if_pos rfl]
      have hc : (-32768 : Int) ≤ ((b1 * 256 + b2 : Nat) : Int) - 65536 ∧
          ((b1 * 256 + b2 : Nat) : Int) - 65536 < 32768 := by omega
      have e1 : ((((b1 * 256 + b2 : Nat) : Int) - 65536) % 65536).toNat / 256 = b1 := by
        omega
      have e2 : ((((b1 * 256 + b2 : Nat) : Int) - 65536) % 65536).toNat % 256 = b2 := by
        omega
      rw [if_pos hc, e1, e2]
    · rw [int_from_bytes_pair_true_low b1 b2 (by omega), int_to_bytes2, if_pos rfl]
      have hc : (-32768 : Int) ≤ ((b1 * 256 + b2 : Nat) : Int) ∧
          ((b1 * 256 + b2 : Nat) : Int) < 32768 := by omega
      have e1 : (((b1 * 256 + b2 : Nat) : Int) % 65536).toNat / 256 = b1 := by omega
      have e2 : (((b1 * 256 + b2 : Nat) : Int) % 65536).toNat % 256 = b2 := by omega
      rw [if_pos hc, e1, e2]

/-- Truncation toward zero is the identity on integers. -/
theorem py_int_of_rat_intCast (n : Int) : py_int_of_rat (n : Rat) = n := by
  simp [py_int_of_rat]

/-- C4 amended: for a sensor with nonzero factor and any two-byte register
value, write_value applied to the result of read_value returns exactly the
one-entry mapping from reg_address to the original bytes; over the exact
rational model the round-trip is exact, and write_value truncates
(v - offset) / factor toward zero (Python int), which is the identity at
these inputs. -/
theorem single_register_roundtrip (s : SingleRegisterSensor) (b1 b2 : Nat)
    (registers : RegisterSnapshot) (hf : s.factor ≠ 0) (h1 : b1 < 256) (h2 : b2 < 256)
    (hr : registers s.reg_address = some [b1, b2]) :
    ∃ v, s.read_value registers = some v ∧
      s.write_value v = some [(s.reg_address, [b1, b2])] := by
  refine ⟨(int_from_bytes [b1, b2] s.signed : Rat) * s.factor + s.offset, ?_, ?_⟩
  · simp [SingleRegisterSensor.read_value, hr]
  · have harg : ((int_from_bytes [b1, b2] s.signed : Rat) * s.factor + s.offset - s.offset)
        / s.factor = ((int_from_bytes [b1, b2] s.signed : Rat)) := by
      rw [add_sub_cancel_right, mul_div_cancel_right₀ _ hf]
    rw [SingleRegisterSensor.write_value, if_neg hf, harg, py_int_of_rat_intCast,
      int_to_bytes2_int_from_bytes s.signed b1 b2 h1 h2]

/-- C4 witness: a signed sensor with factor 1/10 and offset 2 at address 7
round-trips the register bytes [255, 214] (raw value -42). -/
theorem single_register_roundtrip_witness :
    ∃ v, SingleRegisterSensor.read_value ⟨7, 1 / 10, 2, true⟩
        (fun a => if a = 7 then some [255, 214] else none) = some v ∧
      SingleRegisterSensor.write_value ⟨7, 1 / 10, 2, true⟩ v =
        some [(7, [255, 214])] :=
  single_register_roundtrip ⟨7, 1 / 10, 2, true⟩ 255 214
    (fun a => if a = 7 then some [255, 214] else none)
    (by norm_num) (by norm_num) (by norm_num) rfl

/-- C4 counterexample: with factor 1 and offset 0, the implemented
write_value encodes int(5.7) = 5 (truncation toward zero) while the claimed
encoder computes round(5.7) = 6; at value 5.7 the two disagree, so
write_value does not compute round((v - offset) / factor). -/
theorem write_value_rounding_claim_false :
    SingleRegisterSensor.write_value ⟨1, 1, 0, false⟩ (57 / 10) = some [(1, [0, 5])] ∧
    write_value_round_spec ⟨1, 1, 0, false⟩ (57 / 10) = some [(1, [0, 6])] ∧
    SingleRegisterSensor.write_value ⟨1, 1, 0, false⟩ (57 / 10) ≠
      write_value_round_spec ⟨1, 1, 0, false⟩ (57 / 10) := by
  have hnum : ((57 : ℚ) / 10).num = 57 := by norm_num
  have hden : ((57 : ℚ) / 10).den = 10 := by norm_num
  have hint : py_int_of_rat ((57 : ℚ) / 10) = 5 := by
    rw [py_int_of_rat, hnum, hden]
    decide
  have hfl : ((57 : ℚ) / 10).floor = 5 := by
    rw [Rat.floor, hnum, hden]
    decide
  have hround : py_round ((57 : ℚ) / 10) = 6 := by
    simp only [py_round, hfl]
    norm_num
  have hw : SingleRegisterSensor.write_value ⟨1, 1, 0, false⟩ (57 / 10) =
      some [(1, [0, 5])] := by
    norm_num [SingleRegisterSensor.write_value, hint, int_to_bytes2]
    decide
  have hs : write_value_round_spec ⟨1, 1, 0, false⟩ (57 / 10) =
      some [(1, [0, 6])] := by
    norm_num [write_value_round_spec, hround, int_to_bytes2]
    decide
  refine ⟨hw, hs, ?_⟩
  rw [hw, hs]
  simp

/-- Mask with 0x7FFF keeps the low 15 bits. -/
theorem and_7FFF_eq_mod (w : Nat) : w &&& 32767 = w % 32768 := by
  have h := Nat.and_pow_two_sub_one_eq_mod w 15
  norm_num at h
  exact h

/-- Mask of a byte with 0x80 isolates its top bit. -/
theorem and_128_byte (b : Nat) (hb : b < 256) :
    b &&& 128 = if 128 ≤ b then 128 else 0 := by
  have h := Nat.and_two_pow b 7
  rw [Nat.testBit_to_div_mod] at h
  norm_num at h
  by_cases hge : 128 ≤ b
  · have hd : b / 128 % 2 = 1 := by omega
    rw [hd] at h
    simp at h
    rw [if_pos hge]
    exact h
  · have hd : b / 128 % 2 = 0 := by omega
    rw [hd] at h
    simp at h
    rw [if_neg hge]
    exact h

/-- Bit 15 of a big-endian two-byte word is set exactly when the high byte
is at least 128. -/
theorem testBit15_pair (b1 b2 : Nat) (h1 : b1 < 256) (h2 : b2 < 256) :
    (b1 * 256 + b2).testBit 15 = decide (128 ≤ b1) := by
  rw [Nat.testBit_to_div_mod]
  norm_num
  by_cases hge : 128 ≤ b1
  · have hd : (b1 * 256 + b2) / 32768 % 2 = 1 := by omega
    simp [hd, hge]
  · have hd : (b1 * 256 + b2) / 32768 % 2 = 0 := by omega
    simp [hd, hge]

/-- C5: sign-magnitude decode: for a present two-byte register value whose
low 15 bits are m, read_value returns -m * factor + offset when bit 15 is
set and m * factor + offset when it is clear; an absent address reads as
absent. -/
theorem signed_magnitude_decode (s : SignedMagnitudeSingleRegisterSensor)
    (b1 b2 : Nat) (registers : RegisterSnapshot) (h1 : b1 < 256) (h2 : b2 < 256)
    (hr : registers s.reg_address = some [b1, b2]) :
    ((b1 * 256 + b2).testBit 15 = true →
      SignedMagnitudeSingleRegisterSensor.read_value s registers =
        some (-(((b1 * 256 + b2) % 32768 : Nat) : Rat) * s.factor + s.offset)) ∧
    ((b1 * 256 + b2).testBit 15 = false →
      SignedMagnitudeSingleRegisterSensor.read_value s registers =
        some ((((b1 * 256 + b2) % 32768 : Nat) : Rat) * s.factor + s.offset)) ∧
    (∀ regs2 : RegisterSnapshot, regs2 s.reg_address = none →
      SignedMagnitudeSingleRegisterSensor.read_value s regs2 = none) := by
  have hmask : int_from_bytes_unsigned [b1, b2] &&& 32767 = (b1 * 256 + b2) % 32768 := by
    rw [int_from_bytes_unsigned_pair, and_7FFF_eq_mod]
  refine ⟨?_, ?_, ?_⟩
  · intro hbit
    rw [testBit15_pair b1 b2 h1 h2] at hbit
    have hge : 128 ≤ b1 := of_decide_eq_true hbit
    have hand : b1 &&& 128 = 128 := by rw [and_128_byte b1 h1, if_pos hge]
    simp only [SignedMagnitudeSingleRegisterSensor.read_value, hr, List.headD_cons,
      hand, hmask]
    norm_num [neg_one_mul]
  · intro hbit
    rw [testBit15_pair b1 b2 h1 h2] at hbit
    have hlt : ¬ 128 ≤ b1 := of_decide_eq_false hbit
    have hand : b1 &&& 128 = 0 := by rw [and_128_byte b1 h1, if_neg hlt]
    simp only [SignedMagnitudeSingleRegisterSensor.read_value, hr, List.headD_cons,
      hand, hmask]
    norm_num
  · intro regs2 h0
    simp [SignedMagnitudeSingleRegisterSensor.read_value, h0]

/-- C5 witness: bytes [128, 5] (bit 15 set, magnitude 5) with factor 2 and
offset 1 decode to -5 * 2 + 1 = -9. -/
theorem signed_magnitude_decode_witness :
    SignedMagnitudeSingleRegisterSensor.read_value ⟨3, 2, 1, false⟩
      (fun a => if a = 3 then some [128, 5] else none) = some (-9) := by
  have h := (signed_magnitude_decode ⟨3, 2, 1, false⟩ 128 5
      (fun a => if a = 3 then some [128, 5] else none)
      (by norm_num) (by norm_num) rfl).1 (by decide)
  rw [h]
  norm_num

/-- Or of a shifted high word with a low word under 2^16 is their sum. -/
theorem shiftLeft_or_words (hi lo : Nat) (hlo : lo < 65536) :
    hi <<< 16 ||| lo = hi * 65536 + lo := by
  have hlo2 : lo < 2 ^ 16 := by omega
  have h := Nat.mul_add_lt_is_or hlo2 hi
  rw [Nat.shiftLeft_eq, mul_comm hi (2 ^ 16), ← h]

/-- Four-byte big-endian decode, unsigned flag. -/
theorem int_from_bytes_quad_false (h1 h2 l1 l2 : Nat) :
    int_from_bytes [h1, h2, l1, l2] false =
      (((h1 * 256 + h2) * 65536 + (l1 * 256 + l2) : Nat) : Int) := by
  unfold int_from_bytes
  rw [if_neg, int_from_bytes_unsigned_quad]
  rintro ⟨h, _⟩
  exact Bool.false_ne_true h

/-- C6: double-register decode: with low_word_first the snapshot holds the
low word at reg_address and the high word at reg_address + 1, with high word
first the placement is swapped, and both assemble the same four bytes whose
unsigned value is hi <<< 16 ||| lo; a snapshot missing either word address
reads as absent. -/
theorem double_register_decode (s : DoubleRegisterSensor) (h1 h2 l1 l2 : Nat)
    (hh1 : h1 < 256) (hh2 : h2 < 256) (hl1 : l1 < 256) (hl2 : l2 < 256) :
    (s.low_word_first = true →
      s.read_value (fun a => if a = s.reg_address then some [l1, l2]
        else if a = s.reg_address + 1 then some [h1, h2] else none) =
      some ((int_from_bytes [h1, h2, l1, l2] s.signed : Rat) * s.factor + s.offset)) ∧
    (s.low_word_first = false →
      s.read_value (fun a => if a = s.reg_address then some [h1, h2]
        else if a = s.reg_address + 1 then some [l1, l2] else none) =
      some ((int_from_bytes [h1, h2, l1, l2] s.signed : Rat) * s.factor + s.offset)) ∧
    int_from_bytes_unsigned [h1, h2, l1, l2] =
      (h1 * 256 + h2) <<< 16 ||| (l1 * 256 + l2) ∧
    (∀ registers : RegisterSnapshot,
      registers (s.reg_address + (if s.low_word_first then 0 else 1)) = none ∨
      registers (s.reg_address + (if s.low_word_first then 1 else 0)) = none →
      s.read_value registers = none) := by
  have hne : s.reg_address + 1 ≠ s.reg_address := by omega
  refine ⟨?_, ?_, ?_, ?_⟩
  · intro hlw
    simp [DoubleRegisterSensor.read_value, hlw, hne]
  · intro hlw
    simp [DoubleRegisterSensor.read_value, hlw, hne]
  · rw [int_from_bytes_unsigned_quad, shiftLeft_or_words (h1 * 256 + h2) (l1 * 256 + l2)
      (by omega)]
  · intro registers hmiss
    rcases hmiss with hm | hm
    · simp [DoubleRegisterSensor.read_value, hm]
    · simp only [DoubleRegisterSensor.read_value, hm]
      cases registers (s.reg_address + (if s.low_word_first then 0 else 1)) <;> rfl

/-- C6 witness: with low word first, bytes lo = [3, 4] at address 10 and
hi = [1, 2] at address 11 decode to 0x01020304 = 16909060. -/
theorem double_register_decode_witness :
    DoubleRegisterSensor.read_value ⟨10, 1, 0, false, true⟩
      (fun a => if a = 10 then some [3, 4] else if a = 11 then some [1, 2] else none) =
      some 16909060 := by
  have h : DoubleRegisterSensor.read_value ⟨10, 1, 0, false, true⟩
      (fun a => if a = 10 then some [3, 4] else if a = 11 then some [1, 2] else none) =
      some ((int_from_bytes [1, 2, 3, 4] false : Rat) * 1 + 0) :=
    (double_register_decode ⟨10, 1, 0, false, true⟩ 1 2 3 4
      (by norm_num) (by norm_num) (by norm_num) (by norm_num)).1 rfl
  rw [h, int_from_bytes_quad_false]
  norm_num

/-- Accumulating sum over a list of readings is absent once an absent
reading occurs. -/
theorem sum_loop_none (vals : List (Option Rat)) :
    ∀ r : Rat, none ∈ vals → sum_loop r vals = none := by
  induction vals with
  | nil =>
    intro r h
    cases h
  | cons v rest ih =>
    intro r h
    cases v with
    | none => rfl
    | some w =>
      simp only [List.mem_cons] at h
      rcases h with h | h
      · exact absurd h (by simp)
      · exact ih (r + w) h

/-- Accumulating sum over a list of present readings is the accumulator plus
their total. -/
theorem sum_loop_some (vals : List (Option Rat)) :
    ∀ r : Rat, (∀ v ∈ vals, v ≠ none) →
      sum_loop r vals = some (r + (vals.map (fun v => v.getD 0)).sum) := by
  induction vals with
  | nil =>
    intro r _
    simp [sum_loop]
  | cons v rest ih =>
    intro r hall
    cases v with
    | none => exact absurd rfl (hall none (by simp))
    | some w =>
      have hrec := ih (r + w) (fun u hu => hall u (by simp [hu]))
      simp only [sum_loop, hrec, List.map_cons, List.sum_cons, Option.getD_some]
      congr 1
      ring

/-- C7: the computed sum over operand readings is absent whenever at least
one operand reading is absent, equals the sum of all operand values when all
are present, and is 0 for an empty operand list. -/
theorem computed_sum_null_propagation (sensors : List (RegisterSnapshot → Option Rat))
    (registers : RegisterSnapshot) :
    (none ∈ sensors.map (fun s => s registers) →
      ComputedSumSensor.read_value sensors registers = none) ∧
    ((∀ s ∈ sensors, s registers ≠ none) →
      ComputedSumSensor.read_value sensors registers =
        some ((sensors.map (fun s => (s registers).getD 0)).sum)) ∧
    (sensors = [] → ComputedSumSensor.read_value sensors registers = some 0) := by
  refine ⟨?_, ?_, ?_⟩
  · intro h
    exact sum_loop_none (sensors.map (fun s => s registers)) 0 h
  · intro h
    have hall : ∀ v ∈ sensors.map (fun s => s registers), v ≠ none := by
      intro v hv
      simp only [List.mem_map] at hv
      rcases hv with ⟨s, hs, rfl⟩
      exact h s hs
    rw [ComputedSumSensor.read_value,
      sum_loop_some (sensors.map (fun s => s registers)) 0 hall]
    simp only [List.map_map, zero_add]
    rfl
  · rintro rfl
    rfl

/-- C7 witness: an absent operand poisons the sum, two present operands sum,
and the empty operand list sums to 0. -/
theorem computed_sum_null_propagation_witness :
    ComputedSumSensor.read_value [fun _ => some 1, fun _ => none] (fun _ => none) = none ∧
    ComputedSumSensor.read_value [fun _ => some 2, fun _ => some 3] (fun _ => none) = some 5 ∧
    ComputedSumSensor.read_value ([] : List (RegisterSnapshot → Option Rat))
      (fun _ => none) = some 0 := by
  refine ⟨?_, ?_, ?_⟩
  · exact (computed_sum_null_propagation [fun _ => some 1, fun _ => none]
      (fun _ => none)).1 (by simp)
  · have h := (computed_sum_null_propagation [fun _ => some 2, fun _ => some 3]
      (fun _ => none)).2.1 (by
        intro s hs
        simp only [List.mem_cons, List.not_mem_nil, or_false] at hs
        rcases hs with rfl | rfl <;> simp)
    rw [h]
    norm_num
  · exact (computed_sum_null_propagation ([] : List (RegisterSnapshot → Option Rat))
      (fun _ => none)).2.2 rfl
